import Mathlib

/-
Verification development for `utilities/python/mtran-server/download_models.py`:
a shallow embedding of the model-artifact download pipeline (catalog decode,
record filtering, and the per-record download / verify / decompress / cleanup
state machine), together with theorems settling the specification claims.

I/O is abstracted by an environment (`Env`) recording the outcome of each
effectful step (hash of the pre-existing decompressed file, success of the
network fetch, sha256 of the downloaded bytes, success of decompression, sha256
of the decompressed output).  Given such an environment the Python control flow
of `ModelDownloader.download_file` is a pure function, embedded below line by
line.  Python exceptions escaping `download_file` are modelled by
`retval = none` together with `Outcome.raisedTypeError`.
-/

set_option autoImplicit false

/-- Embeds the dataclass `Attachment` of download_models.py. -/
structure Attachment where
  hash : String
  size : Int
  filename : String
  location : String
  mimetype : String

/-- Embeds the dataclass `ModelRecord` of download_models.py.  Optional
catalogue fields (`architecture`, `decompressedHash`, `decompressedSize`) are
`Option`s, matching `dict.get` returning `None` when the key is absent. -/
structure ModelRecord where
  name : String
  schema : Int
  version : String
  file_type : String
  attachment : Attachment
  architecture : Option String
  source_language : String
  target_language : String
  decompressed_hash : Option String
  decompressed_size : Option Int
  filter_expression : String
  id : String
  last_modified : Int

/-- Embeds the module constant `MODEL_CDN_BASE`. -/
def MODEL_CDN_BASE : String := "https://firefox-settings-attachments.cdn.mozilla.net/"

/-- Embeds `ModelRecord.get_download_url`. -/
def ModelRecord.get_download_url (r : ModelRecord) : String :=
  MODEL_CDN_BASE ++ r.attachment.location

/-- Embeds `ModelRecord.get_language_pair`. -/
def ModelRecord.get_language_pair (r : ModelRecord) : String :=
  r.source_language ++ "_" ++ r.target_language

/-
JSON model for the catalogue payload, used by `fetch_records` /
`ModelRecord.from_dict` (claim C7).
-/

/-- Values of a decoded JSON document, as produced by Python `json.load`. -/
inductive JVal where
  | jnull : JVal
  | jbool : Bool → JVal
  | jnum : Int → JVal
  | jstr : String → JVal
  | jarr : List JVal → JVal
  | jobj : List (String × JVal) → JVal

/-- Key lookup in a decoded JSON object (Python `dict` access / `dict.get`). -/
def jlookup (fields : List (String × JVal)) (k : String) : Option JVal :=
  match fields with
  | [] => none
  | (k2, v) :: rest => if k2 = k then some v else jlookup rest k

/-- Projection of a JSON object (Python attribute access on a dict;
anything else raises and is caught by the caller of `fetch_records`). -/
def asObj : JVal → Option (List (String × JVal))
  | JVal.jobj fields => some fields
  | _ => none

/-- Required string-valued field: `data["k"]`.  A missing key raises `KeyError`
inside `ModelRecord.from_dict`, which `fetch_records` catches, so absence maps
to `none` here.  (Python stores a wrongly-typed present value without checking;
the catalogue records are well typed, and no claim depends on that corner.) -/
def reqStr (fields : List (String × JVal)) (k : String) : Option String :=
  match jlookup fields k with
  | some (JVal.jstr s) => some s
  | _ => none

/-- Required integer-valued field: `data["k"]`. -/
def reqInt (fields : List (String × JVal)) (k : String) : Option Int :=
  match jlookup fields k with
  | some (JVal.jnum n) => some n
  | _ => none

/-- Optional string field: `data.get("k")`.  An absent key and a JSON `null`
both yield Python `None`, i.e. `some none`. -/
def optStrField (fields : List (String × JVal)) (k : String) : Option (Option String) :=
  match jlookup fields k with
  | none => some none
  | some JVal.jnull => some none
  | some (JVal.jstr s) => some (some s)
  | some _ => none

/-- Optional integer field: `data.get("k")`. -/
def optIntField (fields : List (String × JVal)) (k : String) : Option (Option Int) :=
  match jlookup fields k with
  | none => some none
  | some JVal.jnull => some none
  | some (JVal.jnum n) => some (some n)
  | some _ => none

/-- String field with a default: `data.get("k", d)`. -/
def strFieldDefault (fields : List (String × JVal)) (k : String) (d : String) : Option String :=
  match jlookup fields k with
  | none => some d
  | some (JVal.jstr s) => some s
  | some _ => none

/-- Embeds `Attachment.from_dict`: every field is a required dict access,
evaluated left to right as in the Python constructor call. -/
def Attachment.from_dict (j : JVal) : Option Attachment :=
  Option.bind (asObj j) fun fields =>
  Option.bind (reqStr fields "hash") fun h =>
  Option.bind (reqInt fields "size") fun sz =>
  Option.bind (reqStr fields "filename") fun fn =>
  Option.bind (reqStr fields "location") fun loc =>
  Option.bind (reqStr fields "mimetype") fun mt =>
  some { hash := h, size := sz, filename := fn, location := loc, mimetype := mt }

/-- Required attachment field: `Attachment.from_dict(data["attachment"])`. -/
def reqAttachment (fields : List (String × JVal)) (k : String) : Option Attachment :=
  match jlookup fields k with
  | some a => Attachment.from_dict a
  | none => none

/-- Embeds `ModelRecord.from_dict`.  The required accesses (`data["name"]`
etc.) fail on a missing key; `.get` accesses never fail on a missing key. -/
def ModelRecord.from_dict (j : JVal) : Option ModelRecord :=
  Option.bind (asObj j) fun fields =>
  Option.bind (reqStr fields "name") fun namev =>
  Option.bind (reqInt fields "schema") fun schemav =>
  Option.bind (reqStr fields "version") fun versionv =>
  Option.bind (reqStr fields "fileType") fun ftype =>
  Option.bind (reqAttachment fields "attachment") fun att =>
  Option.bind (optStrField fields "architecture") fun arch =>
  Option.bind (reqStr fields "sourceLanguage") fun srcl =>
  Option.bind (reqStr fields "targetLanguage") fun tgtl =>
  Option.bind (optStrField fields "decompressedHash") fun dhash =>
  Option.bind (optIntField fields "decompressedSize") fun dsize =>
  Option.bind (strFieldDefault fields "filter_expression" "") fun fexpr =>
  Option.bind (reqStr fields "id") fun idv =>
  Option.bind (reqInt fields "last_modified") fun lm =>
  some { name := namev, schema := schemav, version := versionv,
         file_type := ftype, attachment := att, architecture := arch,
         source_language := srcl, target_language := tgtl,
         decompressed_hash := dhash, decompressed_size := dsize,
         filter_expression := fexpr, id := idv, last_modified := lm }

/-- The keys whose absence makes `ModelRecord.from_dict` raise `KeyError`. -/
def requiredRecordKeys : List String :=
  ["name", "schema", "version", "fileType", "attachment",
   "sourceLanguage", "targetLanguage", "id", "last_modified"]

/-- Embeds the list comprehension
`[ModelRecord.from_dict(record) for record in data.get("data", [])]`:
the first record that fails to decode aborts the whole comprehension. -/
def decodeRecords : List JVal → Option (List ModelRecord)
  | [] => some []
  | j :: rest =>
    match ModelRecord.from_dict j with
    | none => none
    | some r =>
      match decodeRecords rest with
      | none => none
      | some rs => some (r :: rs)

/-- Python iteration over the value found at key `"data"`: lists iterate their
elements, strings their characters, dicts their keys; any other value raises
`TypeError` (caught by `fetch_records`). -/
def iterElems : JVal → Option (List JVal)
  | JVal.jarr xs => some xs
  | JVal.jstr s => some (s.data.map (fun ch => JVal.jstr (String.singleton ch)))
  | JVal.jobj fields => some (fields.map (fun kv => JVal.jstr kv.1))
  | _ => none

/-- Embeds `ModelDownloader.fetch_records`.  The argument is the decoded JSON
body of the catalogue response; `none` stands for a network error, a timeout or
a body that is not JSON (all raise inside the `try` and return `False`). -/
def fetch_records (response : Option JVal) : Option (List ModelRecord) :=
  match response with
  | none => none
  | some body =>
    match asObj body with
    | none => none
    | some fields =>
      match iterElems ((jlookup fields "data").getD (JVal.jarr [])) with
      | none => none
      | some elems => decodeRecords elems

/-
On-disk layout (claim C8): Python computes the decompressed file name with
`record.attachment.filename.replace(".zst", "")`, which removes every
(non-overlapping, left-to-right) occurrence of the substring, not only a
trailing extension.
-/

/-- Worker for `replaceAll`: scans the list left to right; a positive `skip`
counter consumes the remaining characters of a match that was already replaced
(so they are not rescanned), exactly like Python `str.replace`. -/
def replaceAllGo (pat rep : List Char) : List Char → Nat → List Char
  | [], _ => []
  | _ :: rest, Nat.succ k => replaceAllGo pat rep rest k
  | c :: rest, 0 =>
    if pat ≠ [] ∧ pat.isPrefixOf (c :: rest) then
      rep ++ replaceAllGo pat rep rest (pat.length - 1)
    else
      c :: replaceAllGo pat rep rest 0

/-- Replace every non-overlapping occurrence of `pat` in the list, scanning
left to right (the semantics of Python `str.replace` for a nonempty pattern). -/
def replaceAll (pat rep l : List Char) : List Char := replaceAllGo pat rep l 0

/-- Embeds Python `s.replace(pat, rep)` (for the nonempty pattern used here). -/
def str_replace (s pat rep : String) : String :=
  String.mk (replaceAll pat.data rep.data s.data)

/-- Path of the compressed artifact, as a list of path components:
`self.model_dir / lang_pair / record.attachment.filename`. -/
def compressed_path (model_dir : String) (r : ModelRecord) : List String :=
  [model_dir, r.get_language_pair, r.attachment.filename]

/-- Path of the decompressed artifact:
`self.model_dir / lang_pair / record.attachment.filename.replace(".zst", "")`. -/
def decompressed_path (model_dir : String) (r : ModelRecord) : List String :=
  [model_dir, r.get_language_pair, str_replace r.attachment.filename ".zst" ""]

/-- Modelled from the spec wording of the on-disk layout: "the same path with
the compression extension stripped", i.e. a trailing `".zst"` is removed and
nothing else changes.  Used only to compare the spec reading of claim C8
against the source's `replace`-based computation. -/
def spec_strip_extension (filename : String) : String :=
  if List.isSuffixOf ".zst".data filename.data then
    String.mk (filename.data.take (filename.data.length - 4))
  else filename

/-
Per-record pipeline (`ModelDownloader.download_file`) and the orchestrator
(`ModelDownloader.download_all`).
-/

/-- The three orchestrator-wide counters `self.downloaded / self.skipped /
self.failed`. -/
structure Counters where
  downloaded : Nat
  skipped : Nat
  failed : Nat

/-- How one call of `download_file` ends.  `raisedTypeError` is the unhandled
`TypeError` raised by `decompressed_path.touch(last_modified=...)` —
`pathlib.Path.touch` accepts only `mode` and `exist_ok`. -/
inductive Outcome where
  | skippedFile : Outcome
  | completed : Outcome
  | failedFile : Outcome
  | raisedTypeError : Outcome
deriving DecidableEq

/-- Environment of one `download_file` call: the outcome of every effectful
step, fixed up front so that the Python control flow becomes a pure function.
`existing_hash` is the sha256 of the decompressed target if it already exists
(`none` when `decompressed_path.exists()` is false); `compressed_hash_dl` and
`decompressed_hash_out` are the sha256 digests of the bytes the download and
the decompression would produce. -/
structure Env where
  existing_hash : Option String
  compressed_present0 : Bool
  download_ok : Bool
  compressed_hash_dl : String
  failed_download_leaves_file : Bool
  decompress_ok : Bool
  failed_decompress_leaves_file : Bool
  decompressed_hash_out : String

/-- Observable result of one `download_file` call: the returned boolean
(`none` when an exception escapes), the updated counters, which of the two
artifacts remain on disk, whether the network and the decompressor were used,
and the modification timestamp written to the decompressed file (in seconds;
`none` when none was written). -/
structure RunResult where
  retval : Option Bool
  counters : Counters
  compressed_exists : Bool
  decompressed_exists : Bool
  network_used : Bool
  decompress_invoked : Bool
  mtime_set : Option ℚ
  outcome : Outcome

/-- Final stretch of `download_file` after a successful decompressed-hash
check (or none being required): `compressed_path.unlink(missing_ok=True)`
succeeds, then `decompressed_path.touch(last_modified=record.last_modified /
1000)` raises `TypeError` (`pathlib.Path.touch` has no `last_modified`
parameter), so `self.downloaded += 1` is never reached and no timestamp is
written. -/
def download_file_cleanup (_r : ModelRecord) (_env : Env) (c : Counters) : RunResult :=
  { retval := none
    counters := c
    compressed_exists := false
    decompressed_exists := true
    network_used := true
    decompress_invoked := true
    mtime_set := none
    outcome := Outcome.raisedTypeError }

/-- Download-and-verify stretch of `download_file`, entered when the
existing-file check did not skip; `dec0` records whether the decompressed
target already existed (a stale file is not removed by the failure paths that
precede decompression). -/
def download_file_fetch (r : ModelRecord) (env : Env) (c : Counters) (dec0 : Bool) : RunResult :=
  if env.download_ok = false then
    { retval := some false
      counters := { c with failed := c.failed + 1 }
      compressed_exists := env.failed_download_leaves_file
      decompressed_exists := dec0
      network_used := true
      decompress_invoked := false
      mtime_set := none
      outcome := Outcome.failedFile }
  else if env.compressed_hash_dl ≠ r.attachment.hash then
    { retval := some false
      counters := { c with failed := c.failed + 1 }
      compressed_exists := false
      decompressed_exists := dec0
      network_used := true
      decompress_invoked := false
      mtime_set := none
      outcome := Outcome.failedFile }
  else if env.decompress_ok = false then
    { retval := some false
      counters := { c with failed := c.failed + 1 }
      compressed_exists := false
      decompressed_exists := env.failed_decompress_leaves_file
      network_used := true
      decompress_invoked := true
      mtime_set := none
      outcome := Outcome.failedFile }
  else
    match r.decompressed_hash with
    | some dh =>
      if dh ≠ "" then
        if env.decompressed_hash_out ≠ dh then
          { retval := some false
            counters := { c with failed := c.failed + 1 }
            compressed_exists := false
            decompressed_exists := false
            network_used := true
            decompress_invoked := true
            mtime_set := none
            outcome := Outcome.failedFile }
        else download_file_cleanup r env c
      else download_file_cleanup r env c
    | none => download_file_cleanup r env c

/-- Embeds `ModelDownloader.download_file`.  The opening existence check skips
the record when the pre-existing decompressed file's digest equals
`record.decompressed_hash` (a `str`-vs-`None` comparison is simply unequal);
on a mismatch or an absent file the pipeline proceeds to the download. -/
def download_file (r : ModelRecord) (env : Env) (c : Counters) : RunResult :=
  match env.existing_hash with
  | some current_hash =>
    if r.decompressed_hash = some current_hash then
      { retval := some true
        counters := { c with skipped := c.skipped + 1 }
        compressed_exists := env.compressed_present0
        decompressed_exists := true
        network_used := false
        decompress_invoked := false
        mtime_set := none
        outcome := Outcome.skippedFile }
    else download_file_fetch r env c true
  | none => download_file_fetch r env c false

/-- Embeds `ModelDownloader.filter_records` applied to a record list:
`[r for r in self.records if r.architecture == self.architecture]`. -/
def filter_records (records : List ModelRecord) (architecture : String) : List ModelRecord :=
  records.filter (fun r => r.architecture == some architecture)

/-- Embeds `ModelDownloader.download_all`: filter, then run every record's
pipeline and accumulate the counters.  The thread pool only interleaves
records; the counters are the sole shared state, so the accumulated counters
are those of the sequential fold over the filtered list.  Exceptions stored in
futures are never retrieved (`future.result()` is never called), so a raising
record contributes nothing beyond its own counter updates. -/
def download_all (oracle : ModelRecord → Env) (records : List ModelRecord)
    (architecture : String) (c : Counters) : Counters :=
  (filter_records records architecture).foldl
    (fun acc r => (download_file r (oracle r) acc).counters) c

/-- Sum of the three counters. -/
def sumCounters (c : Counters) : Nat := c.downloaded + c.skipped + c.failed

/-
Concrete sample data used by witnesses and counterexamples.
-/

/-- Sample attachment of a well-formed catalogue record. -/
def attGood : Attachment :=
  { hash := "c0ffee", size := 100,
    filename := "model.ende.intgemm.alphas.bin.zst",
    location := "main/model.ende.zst", mimetype := "application/octet-stream" }

/-- Sample record whose download, both hash checks and decompression all
succeed under `envGood`. -/
def rGood : ModelRecord :=
  { name := "model.ende", schema := 1, version := "1.0", file_type := "model",
    attachment := attGood, architecture := some "base",
    source_language := "en", target_language := "de",
    decompressed_hash := some "dec256", decompressed_size := some 200,
    filter_expression := "", id := "rec-1", last_modified := 1700000000123 }

/-- Environment under which every step of `rGood`'s pipeline succeeds. -/
def envGood : Env :=
  { existing_hash := none, compressed_present0 := false, download_ok := true,
    compressed_hash_dl := "c0ffee", failed_download_leaves_file := false,
    decompress_ok := true, failed_decompress_leaves_file := false,
    decompressed_hash_out := "dec256" }

/-- All counters zero (the freshly constructed `ModelDownloader`). -/
def czero : Counters := { downloaded := 0, skipped := 0, failed := 0 }

/-- Oracle assigning `envGood` to every record. -/
def oracleGood : ModelRecord → Env := fun _ => envGood

/-- Record declaring an empty decompressed digest (catalogue entry with
`"decompressedHash": ""`), which Python truthiness treats as undeclared. -/
def rEmptyHash : ModelRecord :=
  { rGood with decompressed_hash := some "", id := "rec-2" }

/-- Environment whose decompressed output hashes to a value different from
every digest declared by the sample records. -/
def envWrongOut : Env := { envGood with decompressed_hash_out := "badbad" }

/-- Environment whose downloaded bytes hash to a value different from the
attachment hash of the sample records. -/
def envBadCompressed : Env := { envGood with compressed_hash_dl := "wrong0" }

/-- Environment in which the decompressed target already exists with digest
equal to `rGood`'s declared decompressed digest. -/
def envSkipGood : Env := { envGood with existing_hash := some "dec256" }

/-- Record that declares no decompressed digest. -/
def rNoDec : ModelRecord := { rGood with decompressed_hash := none, id := "rec-3" }

/-- Record tagged with the `base-memory` architecture. -/
def rMem : ModelRecord := { rGood with architecture := some "base-memory", id := "rec-4" }

/-- Record whose attachment file name contains `".zst"` also away from the
final extension. -/
def rInterior : ModelRecord :=
  { rGood with attachment := { attGood with filename := "a.zst.b.zst" }, id := "rec-6" }

/-
Theorems.
-/

/-- Claim C1: the claim says that a record passing download, compressed-hash
verification, decompression and decompressed-hash verification has its
compressed file deleted, its decompressed file's mtime set to
`last_modified / 1000`, and reaches `Completed` with `downloaded`
incremented.  On the code this fails: after deleting the compressed file,
`decompressed_path.touch(last_modified=record.last_modified / 1000)` raises
`TypeError` (`pathlib.Path.touch` has no `last_modified` parameter), so no
timestamp is written, `Completed` is never reached, and `self.downloaded` is
never incremented.  This theorem evaluates the embedded code on a record for
which every pipeline step succeeds. -/
theorem C1_cleanup_touch_raises :
    (download_file rGood envGood czero).compressed_exists = false ∧
    (download_file rGood envGood czero).mtime_set = none ∧
    (download_file rGood envGood czero).mtime_set
      ≠ some ((rGood.last_modified : ℚ) / 1000) ∧
    (download_file rGood envGood czero).outcome = Outcome.raisedTypeError ∧
    (download_file rGood envGood czero).outcome ≠ Outcome.completed ∧
    (download_file rGood envGood czero).counters.downloaded = czero.downloaded ∧
    (download_file rGood envGood czero).retval = none := by
  decide

/-- Claim C2: the claim says each submitted record increments exactly one of
the three counters, so the counter sum after `download_all` equals the number
of selected records.  On the code this fails for every fully successful
record: the `TypeError` raised by `Path.touch(last_modified=...)` escapes
`download_file` before `self.downloaded += 1`, and `download_all` never calls
`future.result()`, so the exception is swallowed and no counter is
incremented.  Here one record is selected but the counter sum is 0. -/
theorem C2_sum_undercounts :
    (filter_records [rGood] "base").length = 1 ∧
    sumCounters (download_all oracleGood [rGood] "base" czero) = 0 := by
  decide

/-- Claim C3, counterexample: a record that declares a decompressed digest
equal to the empty string (`"decompressedHash": ""` in the catalogue).  The
digest of the decompressed output differs from the declared digest, yet the
Python truthiness test `if record.decompressed_hash:` skips verification, so
the decompressed file stays on disk and `failed` is not incremented. -/
theorem C3_counterexample :
    rEmptyHash.decompressed_hash = some "" ∧
    envWrongOut.decompressed_hash_out ≠ "" ∧
    (download_file rEmptyHash envWrongOut czero).decompressed_exists = true ∧
    (download_file rEmptyHash envWrongOut czero).counters.failed = czero.failed := by
  decide

/-- Claim C8, counterexample: for a record whose attachment file name contains
`".zst"` away from the end (here `"a.zst.b.zst"`), the code's
`filename.replace(".zst", "")` removes every occurrence, producing `"a.b"`,
while stripping the compression extension would produce `"a.zst.b"` — the
decompressed artifact is not stored at the extension-stripped path. -/
theorem C8_counterexample :
    decompressed_path "models" rInterior
      ≠ ["models", rInterior.get_language_pair,
         spec_strip_extension rInterior.attachment.filename] := by
  decide

/-- Claim C3 (amended: the declared decompressed digest is nonempty, so the
Python truthiness test actually runs the verification): when the run reaches
decompression and the output digest differs from the declared digest, both
artifacts are removed from disk and `failed` is incremented by one. -/
theorem C3_decompressed_mismatch_removes_both
    (r : ModelRecord) (env : Env) (c : Counters) (dh : String)
    (hdecl : r.decompressed_hash = some dh) (hne : dh ≠ "")
    (hns : env.existing_hash ≠ some dh)
    (hdl : env.download_ok = true)
    (hch : env.compressed_hash_dl = r.attachment.hash)
    (hdc : env.decompress_ok = true)
    (hout : env.decompressed_hash_out ≠ dh) :
    (download_file r env c).compressed_exists = false ∧
    (download_file r env c).decompressed_exists = false ∧
    (download_file r env c).counters.failed = c.failed + 1 ∧
    (download_file r env c).outcome = Outcome.failedFile := by
  cases henv : env.existing_hash with
  | none =>
    simp [download_file, download_file_fetch, henv, hdl, hch, hdc, hdecl, hne, hout]
  | some cur =>
    have hcur : ¬ (dh = cur) := by
      intro hc
      apply hns
      rw [henv, hc]
    simp [download_file, download_file_fetch, henv, hcur, hdl, hch, hdc, hdecl, hne, hout]

/-- Claim C3, witness: a concrete record with a nonempty declared decompressed
digest and a mismatching decompressed output. -/
theorem C3_witness :
    (download_file rGood envWrongOut czero).compressed_exists = false ∧
    (download_file rGood envWrongOut czero).decompressed_exists = false ∧
    (download_file rGood envWrongOut czero).counters.failed = czero.failed + 1 ∧
    (download_file rGood envWrongOut czero).outcome = Outcome.failedFile :=
  C3_decompressed_mismatch_removes_both rGood envWrongOut czero "dec256"
    rfl (by decide) (by decide) rfl rfl rfl (by decide)

/-- Claim C4: when the downloaded bytes hash to a digest different from
`Attachment.hash`, the compressed file is deleted, `failed` is incremented by
one, and decompression is never invoked on the unverified bytes. -/
theorem C4_compressed_mismatch_never_decompresses
    (r : ModelRecord) (env : Env) (c : Counters)
    (hns : ∀ cur, env.existing_hash = some cur → r.decompressed_hash ≠ some cur)
    (hdl : env.download_ok = true)
    (hbad : env.compressed_hash_dl ≠ r.attachment.hash) :
    (download_file r env c).compressed_exists = false ∧
    (download_file r env c).counters.failed = c.failed + 1 ∧
    (download_file r env c).decompress_invoked = false ∧
    (download_file r env c).outcome = Outcome.failedFile := by
  cases henv : env.existing_hash with
  | none =>
    simp [download_file, download_file_fetch, henv, hdl, hbad]
  | some cur =>
    have hcur := hns cur henv
    simp [download_file, download_file_fetch, henv, hcur, hdl, hbad]

/-- Claim C4, witness: a concrete record whose downloaded bytes hash to a
wrong digest. -/
theorem C4_witness :
    (download_file rGood envBadCompressed czero).compressed_exists = false ∧
    (download_file rGood envBadCompressed czero).counters.failed = czero.failed + 1 ∧
    (download_file rGood envBadCompressed czero).decompress_invoked = false ∧
    (download_file rGood envBadCompressed czero).outcome = Outcome.failedFile :=
  C4_compressed_mismatch_never_decompresses rGood envBadCompressed czero
    (fun cur h => by simp [envBadCompressed, envGood] at h) rfl (by decide)

/-- Claim C5: a record whose decompressed target already exists with digest
equal to its declared decompressed digest is classified `Skipped`: the call
returns success, performs no network activity, increments `skipped` by one and
leaves the other counters and the decompressed file untouched. -/
theorem C5_existing_match_skips
    (r : ModelRecord) (env : Env) (c : Counters) (h0 : String)
    (hex : env.existing_hash = some h0)
    (hdh : r.decompressed_hash = some h0) :
    (download_file r env c).outcome = Outcome.skippedFile ∧
    (download_file r env c).retval = some true ∧
    (download_file r env c).network_used = false ∧
    (download_file r env c).counters.skipped = c.skipped + 1 ∧
    (download_file r env c).counters.downloaded = c.downloaded ∧
    (download_file r env c).counters.failed = c.failed ∧
    (download_file r env c).decompressed_exists = true := by
  simp [download_file, hex, hdh]

/-- Claim C5, witness: re-running the pipeline on `rGood` after its
decompressed output is in place is classified `Skipped`. -/
theorem C5_witness :
    (download_file rGood envSkipGood czero).outcome = Outcome.skippedFile ∧
    (download_file rGood envSkipGood czero).retval = some true ∧
    (download_file rGood envSkipGood czero).network_used = false ∧
    (download_file rGood envSkipGood czero).counters.skipped = czero.skipped + 1 ∧
    (download_file rGood envSkipGood czero).counters.downloaded = czero.downloaded ∧
    (download_file rGood envSkipGood czero).counters.failed = czero.failed ∧
    (download_file rGood envSkipGood czero).decompressed_exists = true :=
  C5_existing_match_skips rGood envSkipGood czero "dec256" rfl rfl

/-- Claim C6: `filter_records` returns exactly the sub-sequence of records
whose architecture tag equals the query under (case-sensitive, whole-string)
equality — every returned record matches, the result is a sublist of the
input (so catalog order is preserved), re-filtering with the same tag is the
identity, and every matching input record is returned.  An empty result is a
legal value, not an error. -/
theorem C6_filter_records_exact
    (records : List ModelRecord) (architecture : String) :
    (∀ r ∈ filter_records records architecture, r.architecture = some architecture) ∧
    List.Sublist (filter_records records architecture) records ∧
    filter_records (filter_records records architecture) architecture
      = filter_records records architecture ∧
    (∀ r ∈ records, r.architecture = some architecture →
      r ∈ filter_records records architecture) := by
  refine ⟨?_, List.filter_sublist _, ?_, ?_⟩
  · intro r hr
    have hb := (List.mem_filter.mp hr).2
    exact eq_of_beq hb
  · apply List.filter_eq_self.mpr
    intro a ha
    exact (List.mem_filter.mp ha).2
  · intro r hr harch
    refine List.mem_filter.mpr ⟨hr, ?_⟩
    rw [harch]
    exact beq_self_eq_true _

/-- Claim C6, witness: filtering a concrete two-record catalogue on `"base"`
selects the record tagged `"base"`. -/
theorem C6_witness : rGood ∈ filter_records [rMem, rGood] "base" :=
  (C6_filter_records_exact [rMem, rGood] "base").2.2.2 rGood (by simp) rfl

/-- Success of a required string access implies the key is present. -/
theorem reqStr_isSome {fields : List (String × JVal)} {k : String} {v : String}
    (h : reqStr fields k = some v) : (jlookup fields k).isSome := by
  cases hl : jlookup fields k with
  | none => rw [reqStr, hl] at h; exact Option.noConfusion h
  | some jv => simp

/-- Success of a required integer access implies the key is present. -/
theorem reqInt_isSome {fields : List (String × JVal)} {k : String} {v : Int}
    (h : reqInt fields k = some v) : (jlookup fields k).isSome := by
  cases hl : jlookup fields k with
  | none => rw [reqInt, hl] at h; exact Option.noConfusion h
  | some jv => simp

/-- Success of the required attachment access implies the key is present. -/
theorem reqAttachment_isSome {fields : List (String × JVal)} {k : String} {v : Attachment}
    (h : reqAttachment fields k = some v) : (jlookup fields k).isSome := by
  cases hl : jlookup fields k with
  | none => rw [reqAttachment, hl] at h; exact Option.noConfusion h
  | some jv => simp

/-- A record object that decodes successfully has every required key. -/
theorem from_dict_isSome_required (jrec : List (String × JVal)) (r : ModelRecord)
    (h : ModelRecord.from_dict (JVal.jobj jrec) = some r) :
    ∀ k ∈ requiredRecordKeys, (jlookup jrec k).isSome := by
  rw [ModelRecord.from_dict] at h
  rw [show asObj (JVal.jobj jrec) = some jrec from rfl, Option.some_bind] at h
  cases hname : reqStr jrec "name" with
  | none => rw [hname, Option.none_bind] at h; exact Option.noConfusion h
  | some namev =>
  rw [hname, Option.some_bind] at h
  cases hschema : reqInt jrec "schema" with
  | none => rw [hschema, Option.none_bind] at h; exact Option.noConfusion h
  | some schemav =>
  rw [hschema, Option.some_bind] at h
  cases hversion : reqStr jrec "version" with
  | none => rw [hversion, Option.none_bind] at h; exact Option.noConfusion h
  | some versionv =>
  rw [hversion, Option.some_bind] at h
  cases hft : reqStr jrec "fileType" with
  | none => rw [hft, Option.none_bind] at h; exact Option.noConfusion h
  | some ftype =>
  rw [hft, Option.some_bind] at h
  cases hatt : reqAttachment jrec "attachment" with
  | none => rw [hatt, Option.none_bind] at h; exact Option.noConfusion h
  | some att =>
  rw [hatt, Option.some_bind] at h
  cases harch : optStrField jrec "architecture" with
  | none => rw [harch, Option.none_bind] at h; exact Option.noConfusion h
  | some arch =>
  rw [harch, Option.some_bind] at h
  cases hsrc : reqStr jrec "sourceLanguage" with
  | none => rw [hsrc, Option.none_bind] at h; exact Option.noConfusion h
  | some srcl =>
  rw [hsrc, Option.some_bind] at h
  cases htgt : reqStr jrec "targetLanguage" with
  | none => rw [htgt, Option.none_bind] at h; exact Option.noConfusion h
  | some tgtl =>
  rw [htgt, Option.some_bind] at h
  cases hdh : optStrField jrec "decompressedHash" with
  | none => rw [hdh, Option.none_bind] at h; exact Option.noConfusion h
  | some dhash =>
  rw [hdh, Option.some_bind] at h
  cases hds : optIntField jrec "decompressedSize" with
  | none => rw [hds, Option.none_bind] at h; exact Option.noConfusion h
  | some dsize =>
  rw [hds, Option.some_bind] at h
  cases hfe : strFieldDefault jrec "filter_expression" "" with
  | none => rw [hfe, Option.none_bind] at h; exact Option.noConfusion h
  | some fexpr =>
  rw [hfe, Option.some_bind] at h
  cases hid : reqStr jrec "id" with
  | none => rw [hid, Option.none_bind] at h; exact Option.noConfusion h
  | some idv =>
  rw [hid, Option.some_bind] at h
  cases hlm : reqInt jrec "last_modified" with
  | none => rw [hlm, Option.none_bind] at h; exact Option.noConfusion h
  | some lm =>
  intro k hk
  simp only [requiredRecordKeys, List.mem_cons, List.not_mem_nil, or_false] at hk
  rcases hk with rfl | rfl | rfl | rfl | rfl | rfl | rfl | rfl | rfl
  · exact reqStr_isSome hname
  · exact reqInt_isSome hschema
  · exact reqStr_isSome hversion
  · exact reqStr_isSome hft
  · exact reqAttachment_isSome hatt
  · exact reqStr_isSome hsrc
  · exact reqStr_isSome htgt
  · exact reqStr_isSome hid
  · exact reqInt_isSome hlm

/-- A record object missing a required key fails to decode (`KeyError`). -/
theorem from_dict_missing_key (jrec : List (String × JVal)) (k : String)
    (hk : k ∈ requiredRecordKeys) (hmiss : jlookup jrec k = none) :
    ModelRecord.from_dict (JVal.jobj jrec) = none := by
  cases hfd : ModelRecord.from_dict (JVal.jobj jrec) with
  | none => rfl
  | some r =>
    have hsome := from_dict_isSome_required jrec r hfd k hk
    rw [hmiss] at hsome
    exact absurd hsome (by simp)

/-- One undecodable element aborts the whole record comprehension. -/
theorem decodeRecords_none_of_mem (arr : List JVal) (j : JVal)
    (hmem : j ∈ arr) (hj : ModelRecord.from_dict j = none) :
    decodeRecords arr = none := by
  induction arr with
  | nil => cases hmem
  | cons a rest ih =>
    rcases List.mem_cons.mp hmem with rfl | hmem2
    · simp [decodeRecords, hj]
    · unfold decodeRecords
      cases ModelRecord.from_dict a with
      | none => rfl
      | some r => rw [ih hmem2]

/-- A successful record comprehension decodes the input elements pointwise and
in order. -/
theorem decodeRecords_forall2 : ∀ (arr : List JVal) (l : List ModelRecord),
    decodeRecords arr = some l →
    List.Forall₂ (fun j r => ModelRecord.from_dict j = some r) arr l := by
  intro arr
  induction arr with
  | nil =>
    intro l h
    simp only [decodeRecords, Option.some.injEq] at h
    rw [← h]
    exact List.Forall₂.nil
  | cons a rest ih =>
    intro l h
    unfold decodeRecords at h
    cases ha : ModelRecord.from_dict a with
    | none => rw [ha] at h; exact Option.noConfusion h
    | some r =>
      rw [ha] at h
      cases hrest : decodeRecords rest with
      | none => rw [hrest] at h; exact Option.noConfusion h
      | some rs =>
        rw [hrest] at h
        injection h with h2
        rw [← h2]
        exact List.Forall₂.cons ha (ih rs hrest)

/-- Claim C7: the catalogue fetch fails when the network call or the JSON
parse fails (`response = none`), and when any single record in the `"data"`
array is missing a required field (the `KeyError` aborts the whole
comprehension — no per-record skip); on success it returns exactly the
decoded records of the `"data"` array, pointwise and in catalog order. -/
theorem C7_fetch_records_decode :
    fetch_records none = none ∧
    (∀ (fs jrec : List (String × JVal)) (arr : List JVal) (k : String),
      jlookup fs "data" = some (JVal.jarr arr) →
      JVal.jobj jrec ∈ arr →
      k ∈ requiredRecordKeys →
      jlookup jrec k = none →
      fetch_records (some (JVal.jobj fs)) = none) ∧
    (∀ (fs : List (String × JVal)) (arr : List JVal) (l : List ModelRecord),
      jlookup fs "data" = some (JVal.jarr arr) →
      fetch_records (some (JVal.jobj fs)) = some l →
      List.Forall₂ (fun j r => ModelRecord.from_dict j = some r) arr l) := by
  refine ⟨rfl, ?_, ?_⟩
  · intro fs jrec arr k hdata hmem hk hmiss
    have hfd := from_dict_missing_key jrec k hk hmiss
    have hdec := decodeRecords_none_of_mem arr (JVal.jobj jrec) hmem hfd
    simp [fetch_records, asObj, hdata, iterElems, hdec]
  · intro fs arr l hdata hfetch
    simp only [fetch_records, asObj, hdata, Option.getD_some, iterElems] at hfetch
    exact decodeRecords_forall2 arr l hfetch

/-- Claim C7, witness: a catalogue payload whose single record is an empty
object (missing the required `"name"` field) makes the whole fetch fail. -/
theorem C7_witness :
    fetch_records (some (JVal.jobj [("data", JVal.jarr [JVal.jobj []])])) = none :=
  C7_fetch_records_decode.2.1 [("data", JVal.jarr [JVal.jobj []])] [] [JVal.jobj []]
    "name" rfl (by simp) (by simp [requiredRecordKeys]) rfl

/-- Reflexivity of the boolean prefix test on character lists. -/
theorem isPrefixOf_self (l : List Char) : l.isPrefixOf l = true := by
  induction l with
  | nil => rfl
  | cons c rest ih => simp [List.isPrefixOf, ih]

/-- A skip counter at least as large as the list erases the rest of the scan. -/
theorem replaceAllGo_skip_all (pat rep : List Char) :
    ∀ (l : List Char) (k : Nat), l.length ≤ k → replaceAllGo pat rep l k = [] := by
  intro l
  induction l with
  | nil => intro k _; cases k <;> rfl
  | cons c rest ih =>
    intro k hk
    cases k with
    | zero => simp at hk
    | succ k2 =>
      show replaceAllGo pat rep (c :: rest) (Nat.succ k2) = []
      simp only [replaceAllGo]
      exact ih k2 (by simpa using hk)

/-- When the only occurrence of the (nonempty) pattern is the trailing copy,
replacing every occurrence by the empty string is exactly stripping that
trailing copy. -/
theorem replaceAll_append_pat (pat : List Char) (hp : pat ≠ []) :
    ∀ (base : List Char),
      (∀ i, i < base.length → pat.isPrefixOf ((base ++ pat).drop i) = false) →
      replaceAll pat [] (base ++ pat) = base := by
  intro base
  induction base with
  | nil =>
    intro _
    cases hpat : pat with
    | nil => exact absurd hpat hp
    | cons p ps =>
      show replaceAllGo (p :: ps) [] ([] ++ (p :: ps)) 0 = []
      simp only [List.nil_append, replaceAllGo]
      rw [if_pos ⟨by simp, isPrefixOf_self (p :: ps)⟩]
      simp only [List.nil_append, List.length_cons, Nat.add_sub_cancel]
      exact replaceAllGo_skip_all (p :: ps) [] ps ps.length (le_refl _)
  | cons b bs ih =>
    intro hno
    have h0 : pat.isPrefixOf (b :: (bs ++ pat)) = false := by
      have := hno 0 (by simp)
      simpa using this
    show replaceAllGo pat [] ((b :: bs) ++ pat) 0 = b :: bs
    rw [List.cons_append]
    simp only [replaceAllGo]
    rw [if_neg (by rw [h0]; simp)]
    have hrest : replaceAllGo pat [] (bs ++ pat) 0 = bs := by
      apply ih
      intro i hi
      have := hno (i + 1) (by simpa using Nat.succ_lt_succ hi)
      simpa [List.drop_succ_cons] using this
    rw [hrest]

/-- Claim C8 (amended: the decompressed artifact keeps the compressed path
with every occurrence of the substring `".zst"` removed from the file name,
which coincides with stripping the compression extension whenever `".zst"`
occurs only as the trailing extension): both artifact paths are
`<model_dir>/<sourceLanguage>_<targetLanguage>/<name>`, the compressed one
with `attachment.filename` itself and the decompressed one with
`filename.replace(".zst", "")`; and when the only occurrence of `".zst"` in
the file name is the trailing one, that replacement equals the
extension-stripped name. -/
theorem C8_paths_replace_all (model_dir : String) (r : ModelRecord) :
    compressed_path model_dir r
      = [model_dir, r.source_language ++ "_" ++ r.target_language,
         r.attachment.filename] ∧
    decompressed_path model_dir r
      = [model_dir, r.source_language ++ "_" ++ r.target_language,
         str_replace r.attachment.filename ".zst" ""] ∧
    (∀ base : List Char, r.attachment.filename.data = base ++ ".zst".data →
      (∀ i, i < base.length →
        (".zst".data.isPrefixOf ((base ++ ".zst".data).drop i)) = false) →
      (str_replace r.attachment.filename ".zst" "").data = base) := by
  refine ⟨rfl, rfl, ?_⟩
  intro base hfn hno
  have hred : (str_replace r.attachment.filename ".zst" "").data
      = replaceAll ".zst".data [] r.attachment.filename.data := rfl
  rw [hred, hfn]
  exact replaceAll_append_pat ".zst".data (by decide) base hno

/-- Claim C8, witness: on the sample record's file name
`"model.ende.intgemm.alphas.bin.zst"`, where `".zst"` occurs only as the
trailing extension, the code's replacement equals stripping the extension. -/
theorem C8_witness :
    (str_replace rGood.attachment.filename ".zst" "").data
      = "model.ende.intgemm.alphas.bin".data :=
  (C8_paths_replace_all "models" rGood).2.2 "model.ende.intgemm.alphas.bin".data
    (by decide) (by decide)

/-- The download-and-verify stretch of the pipeline never classifies a record
as skipped: it leaves `skipped` unchanged, always uses the network, and its
outcome is never `Skipped`. -/
theorem download_file_fetch_no_skip (r : ModelRecord) (env : Env) (c : Counters) (dec0 : Bool) :
    (download_file_fetch r env c dec0).counters.skipped = c.skipped ∧
    (download_file_fetch r env c dec0).network_used = true ∧
    (download_file_fetch r env c dec0).outcome ≠ Outcome.skippedFile := by
  unfold download_file_fetch download_file_cleanup
  split_ifs with h1 h2 h3
  · exact ⟨rfl, rfl, by simp⟩
  · exact ⟨rfl, rfl, by simp⟩
  · exact ⟨rfl, rfl, by simp⟩
  · split
    · split_ifs with h4 h5
      · exact ⟨rfl, rfl, by simp⟩
      · exact ⟨rfl, rfl, by simp⟩
      · exact ⟨rfl, rfl, by simp⟩
    · exact ⟨rfl, rfl, by simp⟩

/-- With no declared decompressed digest, a run whose download, compressed
hash check and decompression succeed falls through to the cleanup stretch
without any decompressed-hash verification. -/
theorem download_file_fetch_cleanup_of_none (r : ModelRecord) (env : Env) (c : Counters)
    (dec0 : Bool) (h : r.decompressed_hash = none) (hdl : env.download_ok = true)
    (hch : env.compressed_hash_dl = r.attachment.hash) (hdc : env.decompress_ok = true) :
    download_file_fetch r env c dec0 = download_file_cleanup r env c := by
  simp [download_file_fetch, hdl, hch, hdc, h]

/-- Claim C10: a record that declares no decompressed digest is never
classified `Skipped` — the existence check `current_hash ==
record.decompressed_hash` compares a digest string against `None` and always
fails, so the record is re-downloaded on every run; and when download,
compressed-hash check and decompression succeed, the run passes straight
through the (skipped) decompressed-hash verification into the cleanup
stretch regardless of what the decompressed output hashes to. -/
theorem C10_absent_digest_never_skips
    (r : ModelRecord) (env : Env) (c : Counters)
    (h : r.decompressed_hash = none) :
    (download_file r env c).counters.skipped = c.skipped ∧
    (download_file r env c).network_used = true ∧
    (download_file r env c).outcome ≠ Outcome.skippedFile ∧
    (env.download_ok = true → env.compressed_hash_dl = r.attachment.hash →
      env.decompress_ok = true →
      (download_file r env c).outcome = Outcome.raisedTypeError) := by
  have hred : ∃ dec0, download_file r env c = download_file_fetch r env c dec0 := by
    cases henv : env.existing_hash with
    | none => exact ⟨false, by simp [download_file, henv]⟩
    | some cur => exact ⟨true, by simp [download_file, henv, h]⟩
  obtain ⟨dec0, hred2⟩ := hred
  rw [hred2]
  have hspec := download_file_fetch_no_skip r env c dec0
  refine ⟨hspec.1, hspec.2.1, hspec.2.2, ?_⟩
  intro hdl hch hdc
  rw [download_file_fetch_cleanup_of_none r env c dec0 h hdl hch hdc]
  rfl

/-- Claim C10, witness: a concrete record without a declared decompressed
digest is not skipped, uses the network, and (all steps succeeding) runs into
the cleanup `TypeError` with no decompressed-hash verification. -/
theorem C10_witness :
    (download_file rNoDec envGood czero).counters.skipped = czero.skipped ∧
    (download_file rNoDec envGood czero).network_used = true ∧
    (download_file rNoDec envGood czero).outcome = Outcome.raisedTypeError :=
  ⟨(C10_absent_digest_never_skips rNoDec envGood czero rfl).1,
   (C10_absent_digest_never_skips rNoDec envGood czero rfl).2.1,
   (C10_absent_digest_never_skips rNoDec envGood czero rfl).2.2.2 rfl rfl rfl⟩
